import Mathlib

/-!
Verification of the configuration loading/merging subsystem and the
auth-challenge client of the `origin` CLI client repository.

The Go sources are shallowly embedded:

* `pkg/client/clientcmd` loader (`ClientConfigLoadingRules.Load`,
  `mergeConfigWithFile`, `resolveLocalPaths`, `resolveLocalPath`) — the
  config merge engine;
* `pkg/cmd/util/tokencmd/challenging_client.go` — the basic-auth
  challenge client;
* `pkg/cmd/cli/config` (`UpdateConfigFile`) — config persistence.

File I/O is modelled by an oracle `fs : String → FileOutcome` giving the
outcome of reading + decoding each path, and `filepath` operations are
modelled on Unix semantics with the working directory passed explicitly
(`cwd`), mirroring `os.Getwd`.
-/

set_option autoImplicit false

namespace Origin

/-! ## Go `path/filepath` model (Unix rules)

`filepath.IsAbs`, `filepath.Clean`, `filepath.Join`, `filepath.Dir` and
`filepath.Abs` as used by `resolveLocalPaths` / `resolveLocalPath`.
All functions work on the underlying character lists so that proofs are
plain list inductions. -/

/-- Model of Go `filepath.IsAbs` on Unix: the path begins with a slash. -/
def isAbsL (cs : List Char) : Bool :=
  match cs with
  | c :: _ => c == '/'
  | [] => false

/-- Split a character list on `'/'` separators (like `strings.Split`). -/
def splitSlash : List Char → List (List Char)
  | [] => [[]]
  | c :: cs =>
    match splitSlash cs with
    | [] => [[]]
    | g :: gs => if c = '/' then [] :: g :: gs else (c :: g) :: gs

/-- Process the components of a path for Go `filepath.Clean`: drop empty
and `"."` components, let `".."` pop a previous component (unless at the
root, where it is dropped, or at the start of a relative path, where it
is kept).  `out` is the reversed list of already-emitted components. -/
def cleanComps (rooted : Bool) : List (List Char) → List (List Char) → List (List Char)
  | out, [] => out.reverse
  | out, comp :: rest =>
    if comp = [] ∨ comp = ['.'] then
      cleanComps rooted out rest
    else if comp = ['.', '.'] then
      match out with
      | o :: os =>
        if o = ['.', '.'] then cleanComps rooted (comp :: o :: os) rest
        else cleanComps rooted os rest
      | [] =>
        if rooted then cleanComps rooted [] rest
        else cleanComps rooted [comp] rest
    else
      cleanComps rooted (comp :: out) rest

/-- Interleave `'/'` between path components. -/
def joinComps : List (List Char) → List Char
  | [] => []
  | [c] => c
  | c :: cs => c ++ '/' :: joinComps cs

/-- Model of Go `filepath.Clean` on Unix (on character lists). -/
def cleanL (cs : List Char) : List Char :=
  if cs = [] then ['.']
  else
    let rooted := isAbsL cs
    let body := joinComps (cleanComps rooted [] (splitSlash cs))
    if rooted then '/' :: body
    else if body = [] then ['.'] else body

/-- Model of Go `filepath.Join` for two elements (on character lists):
empty elements are dropped, the rest joined with `'/'` and cleaned. -/
def joinL (a b : List Char) : List Char :=
  if a = [] then (if b = [] then [] else cleanL b)
  else cleanL (a ++ '/' :: b)

/-- Model of Go `filepath.Dir` (on character lists): everything up to and
including the final slash, cleaned; `"."` when there is no slash. -/
def dirL (cs : List Char) : List Char :=
  cleanL (cs.reverse.dropWhile (fun c => c ≠ '/')).reverse

/-- Model of Go `filepath.Abs` (on character lists), with the working
directory `cwd` passed explicitly in place of `os.Getwd`. -/
def absL (cwd cs : List Char) : List Char :=
  if isAbsL cs then cleanL cs else joinL cwd cs

/-- String-level `filepath.IsAbs`. -/
def isAbs (p : String) : Bool := isAbsL p.data

/-- String-level `filepath.Clean`. -/
def clean (p : String) : String := ⟨cleanL p.data⟩

/-- String-level `filepath.Join` of two elements. -/
def joinPath (a b : String) : String := ⟨joinL a.data b.data⟩

/-- String-level `filepath.Dir`. -/
def dirPath (p : String) : String := ⟨dirL p.data⟩

/-- String-level `filepath.Abs` with explicit working directory. -/
def absPath (cwd p : String) : String := ⟨absL cwd.data p.data⟩

theorem cleanL_rooted {cs : List Char} (h : isAbsL cs = true) :
    isAbsL (cleanL cs) = true ∧ cleanL cs ≠ [] := by
  have hne : cs ≠ [] := by
    intro hnil; rw [hnil] at h; simp [isAbsL] at h
  simp only [cleanL, if_neg hne, h]
  exact ⟨rfl, by simp⟩

theorem isAbsL_cons {c : Char} {cs : List Char} :
    isAbsL (c :: cs) = true ↔ c = '/' := by
  simp [isAbsL]

theorem joinL_abs {a : List Char} (b : List Char) (h : isAbsL a = true) :
    isAbsL (joinL a b) = true ∧ joinL a b ≠ [] := by
  have hne : a ≠ [] := by
    intro hnil; rw [hnil] at h; simp [isAbsL] at h
  have habs : isAbsL (a ++ '/' :: b) = true := by
    cases a with
    | nil => exact absurd rfl hne
    | cons c cs =>
      have hc : c = '/' := isAbsL_cons.mp h
      subst hc
      simp [isAbsL_cons]
  simp only [joinL, if_neg hne]
  exact cleanL_rooted habs

theorem absL_abs {cwd : List Char} (cs : List Char) (h : isAbsL cwd = true) :
    isAbsL (absL cwd cs) = true ∧ absL cwd cs ≠ [] := by
  by_cases hcs : isAbsL cs = true
  · simp only [absL, hcs, if_pos rfl]
    exact cleanL_rooted hcs
  · simp only [absL, hcs]
    simpa using joinL_abs cs h

theorem absPath_abs (cwd p : String) (h : isAbs cwd = true) :
    isAbs (absPath cwd p) = true ∧ absPath cwd p ≠ "" := by
  have := absL_abs p.data h
  refine ⟨this.1, ?_⟩
  intro hemp
  have : absL cwd.data p.data = [] := congrArg String.data hemp
  exact absL_abs p.data h |>.2 this

/-! ## Config data model

The `clientcmdapi` document types as used by the loader (fields the source
reads or writes): `Cluster`, `AuthInfo`, `Context`, `Config`, together with
the `New*` zero-value constructors.  Go's maps are modelled as association
lists whose semantics is given by `alistFind` (first binding wins). -/

structure Cluster where
  Server : String
  InsecureSkipTLSVerify : Bool
  CertificateAuthority : String
deriving DecidableEq, Repr

structure AuthInfo where
  AuthPath : String
  ClientCertificate : String
  ClientKey : String
  Token : String
deriving DecidableEq, Repr

structure Context where
  Cluster : String
  AuthInfo : String
  Namespace : String
deriving DecidableEq, Repr

structure Config where
  Clusters : List (String × Cluster)
  AuthInfos : List (String × AuthInfo)
  Contexts : List (String × Context)
  CurrentContext : String
deriving DecidableEq, Repr

def NewCluster : Cluster := ⟨"", false, ""⟩

def NewAuthInfo : AuthInfo := ⟨"", "", "", ""⟩

def NewContext : Context := ⟨"", "", ""⟩

def NewConfig : Config := ⟨[], [], [], ""⟩

/-- Look a key up in an association list (first binding wins, matching Go
map semantics: keys are unique in any map produced by decoding). -/
def alistFind {α : Type} (k : String) : List (String × α) → Option α
  | [] => none
  | kv :: rest => if kv.1 = k then some kv.2 else alistFind k rest

/-- Strict `Option` alternative: the first operand wins when present. -/
def oOr {α : Type} : Option α → Option α → Option α
  | some v, _ => some v
  | none, b => b

/-- Merge of one map-valued field by the vendored `mergo.Merge`: a key already
present in `dst` is never changed (the whole `src` entry under that key is
discarded), keys not yet present are added. -/
def mergeMapL {α : Type} (dst src : List (String × α)) : List (String × α) :=
  dst ++ src.filter (fun kv => (alistFind kv.1 dst).isNone)

/-- Model of the vendored `mergo.Merge` as exercised on `Config` documents,
with the behaviour the loader source documents and relies on: map keys already
set in `dst` are never changed, while a non-map (struct/scalar) field of `dst`
is overwritten whenever the corresponding `src` field is non-empty. -/
def mergoMerge (dst src : Config) : Config where
  Clusters := mergeMapL dst.Clusters src.Clusters
  AuthInfos := mergeMapL dst.AuthInfos src.AuthInfos
  Contexts := mergeMapL dst.Contexts src.Contexts
  CurrentContext := if src.CurrentContext = "" then dst.CurrentContext else src.CurrentContext

/-! ## Loading rules and the filesystem oracle -/

structure ClientConfigLoadingRule where
  CommandLinePath : String
  EnvVarPath : String
  CurrentDirectoryPath : String
  HomeDirectoryPath : String
deriving DecidableEq, Repr

structure ClientConfigLoadingRules where
  Rules : List ClientConfigLoadingRule
deriving DecidableEq, Repr

/-- First loading rule, as `Default()` in the source. -/
def ClientConfigLoadingRules.DefaultRule (rules : ClientConfigLoadingRules) :
    Option ClientConfigLoadingRule :=
  rules.Rules.head?

def ClientConfigLoadingRules.AppendRule (rules : ClientConfigLoadingRules)
    (commandLinePath envVarPath currentDirectoryPath homeDirectoryPath : String) :
    ClientConfigLoadingRules :=
  ⟨rules.Rules ++ [⟨commandLinePath, envVarPath, currentDirectoryPath, homeDirectoryPath⟩]⟩

def ClientConfigLoadingRules.PrependRule (rules : ClientConfigLoadingRules)
    (commandLinePath envVarPath currentDirectoryPath homeDirectoryPath : String) :
    ClientConfigLoadingRules :=
  ⟨⟨commandLinePath, envVarPath, currentDirectoryPath, homeDirectoryPath⟩ :: rules.Rules⟩

/-- Outcome of reading and decoding one candidate path, the oracle standing in
for `os.Stat` / `ioutil.ReadFile` / codec decode: the file may not exist, may
exist but fail to read or decode, or may decode to a `Config` document. -/
inductive FileOutcome where
  | missing
  | failure
  | ok (cfg : Config)
deriving DecidableEq, Repr

/-- The two error shapes `Load` collects: the up-front "config file does not
exist" check on the command-line path, and per-file load/decode errors from
`mergeConfigWithFile`. -/
inductive LoadError where
  | configFileDoesNotExist (path : String)
  | errorLoadingConfigFile (path : String)
deriving DecidableEq, Repr

/-! ## The loader -/

/-- Model of `mergeConfigWithFile`: an empty filename or a missing file is
silently skipped; a file that exists but fails to read or decode produces an
error; otherwise the decoded config is merged (`mergo.Merge`) into
`startingConfig`. -/
def mergeConfigWithFile (fs : String → FileOutcome) (startingConfig : Config)
    (filename : String) : Config × Option LoadError :=
  if filename = "" then (startingConfig, none)
  else
    match fs filename with
    | .missing => (startingConfig, none)
    | .failure => (startingConfig, some (.errorLoadingConfigFile filename))
    | .ok config => (mergoMerge startingConfig config, none)

/-- Model of `resolveLocalPath`: the empty path and absolute paths are
returned unchanged, a relative path is joined onto `startingDir`. -/
def resolveLocalPath (startingDir path : String) : String :=
  if path = "" then path
  else if isAbs path then path
  else joinPath startingDir path

def resolveCluster (configDir : String) (cluster : Cluster) : Cluster :=
  { cluster with CertificateAuthority := resolveLocalPath configDir cluster.CertificateAuthority }

def resolveAuthInfo (configDir : String) (authInfo : AuthInfo) : AuthInfo :=
  { authInfo with
      AuthPath := resolveLocalPath configDir authInfo.AuthPath
      ClientCertificate := resolveLocalPath configDir authInfo.ClientCertificate
      ClientKey := resolveLocalPath configDir authInfo.ClientKey }

/-- Model of `resolveLocalPaths`: with respect to the parent directory of
`filename`, rewrite the certificate-authority path of every cluster and the
auth-path, client-certificate and client-key paths of every auth info.
`filepath.Abs` only fails in Go when the working directory cannot be
determined; the model passes `cwd` explicitly, so no error case remains. -/
def resolveLocalPaths (cwd filename : String) (config : Config) : Config :=
  if filename = "" then config
  else
    let configDir := absPath cwd (dirPath filename)
    { config with
        Clusters := config.Clusters.map (fun kv => (kv.1, resolveCluster configDir kv.2))
        AuthInfos := config.AuthInfos.map (fun kv => (kv.1, resolveAuthInfo configDir kv.2)) }

/-- The flattened candidate list of `Load`: for each rule in order, the
command-line, env-var, current-directory and home-directory paths. -/
def flattenRules (rules : List ClientConfigLoadingRule) : List String :=
  rules.flatMap (fun rule =>
    [rule.CommandLinePath, rule.EnvVarPath, rule.CurrentDirectoryPath, rule.HomeDirectoryPath])

/-- The up-front existence check of `Load` on the command-line-specified path.
The source reads `rules.CommandLinePath`; that slot is bound by every caller
through `Default()` — the first rule — so the check is modelled on the first
rule's `CommandLinePath`. -/
def commandLinePathCheck (fs : String → FileOutcome)
    (rules : ClientConfigLoadingRules) : List LoadError :=
  match rules.Rules.head? with
  | some rule =>
    if rule.CommandLinePath ≠ "" ∧ fs rule.CommandLinePath = .missing then
      [.configFileDoesNotExist rule.CommandLinePath]
    else []
  | none => []

/-- One iteration of either merge pass of `Load` on the accumulated config:
merge the candidate file into the accumulator, then run `resolveLocalPaths`
for that filename on the whole accumulator.  Note the source resolves the
accumulator after merging, not the just-decoded document before merging. -/
def passStep (fs : String → FileOutcome) (cwd : String) (acc : Config) (file : String) : Config :=
  resolveLocalPaths cwd file (mergeConfigWithFile fs acc file).1

/-- First pass of `Load` (priority order), also collecting the per-file
errors exactly as the source's first loop does. -/
def mapPass (fs : String → FileOutcome) (cwd : String) (files : List String) :
    Config × List LoadError :=
  files.foldl
    (fun acc file =>
      let merged := mergeConfigWithFile fs acc.1 file
      (resolveLocalPaths cwd file merged.1, acc.2 ++ merged.2.toList))
    (NewConfig, [])

/-- Second pass of `Load`: the same candidate list walked in reverse order,
with errors not collected the second time. -/
def nonMapPass (fs : String → FileOutcome) (cwd : String) (files : List String) : Config :=
  files.reverse.foldl (passStep fs cwd) NewConfig

/-- Model of `ClientConfigLoadingRules.Load`: check the command-line path,
flatten the candidate list, run the map pass in priority order and the
struct/scalar pass in reverse order, then merge the two results on top of an
empty config.  Returns the combined document and the collected errors (the
source wraps them in one aggregate). -/
def ClientConfigLoadingRules.Load (rules : ClientConfigLoadingRules)
    (fs : String → FileOutcome) (cwd : String) : Config × List LoadError :=
  let errlist := commandLinePathCheck fs rules
  let kubeConfigFiles := flattenRules rules.Rules
  let mapResult := mapPass fs cwd kubeConfigFiles
  let nonMapConfig := nonMapPass fs cwd kubeConfigFiles
  let config := mergoMerge (mergoMerge NewConfig mapResult.1) nonMapConfig
  (config, errlist ++ mapResult.2)

/-! ## Specification-side characterizations

Independent descriptions of what `Load` is supposed to produce, stated by
direct recursion over the flattened candidate list. -/

/-- The resolved cluster entry a single candidate file contributes for key
`k`: defined only when the file is named, loads successfully, and its document
binds `k`; the entry is resolved against the file's own directory. -/
def fileClusterDef (fs : String → FileOutcome) (cwd file k : String) : Option Cluster :=
  if file = "" then none
  else
    match fs file with
    | .ok cfg => (alistFind k cfg.Clusters).map (resolveCluster (absPath cwd (dirPath file)))
    | _ => none

/-- Same as `fileClusterDef` for auth-info entries. -/
def fileAuthInfoDef (fs : String → FileOutcome) (cwd file k : String) : Option AuthInfo :=
  if file = "" then none
  else
    match fs file with
    | .ok cfg => (alistFind k cfg.AuthInfos).map (resolveAuthInfo (absPath cwd (dirPath file)))
    | _ => none

/-- Same for context entries; contexts carry no path fields, so no
resolution applies. -/
def fileContextDef (fs : String → FileOutcome) (file k : String) : Option Context :=
  if file = "" then none
  else
    match fs file with
    | .ok cfg => alistFind k cfg.Contexts
    | _ => none

/-- The entry of the highest-priority (first, in flattened order) candidate
file that defines key `k` in its `Clusters` map, resolved against that file's
directory. -/
def firstClusterDef (fs : String → FileOutcome) (cwd : String) :
    List String → String → Option Cluster
  | [], _ => none
  | f :: rest, k => oOr (fileClusterDef fs cwd f k) (firstClusterDef fs cwd rest k)

def firstAuthInfoDef (fs : String → FileOutcome) (cwd : String) :
    List String → String → Option AuthInfo
  | [], _ => none
  | f :: rest, k => oOr (fileAuthInfoDef fs cwd f k) (firstAuthInfoDef fs cwd rest k)

def firstContextDef (fs : String → FileOutcome) :
    List String → String → Option Context
  | [], _ => none
  | f :: rest, k => oOr (fileContextDef fs f k) (firstContextDef fs rest k)

/-- The non-empty `CurrentContext` a single candidate file supplies, if any. -/
def fileCurrentContext (fs : String → FileOutcome) (file : String) : Option String :=
  if file = "" then none
  else
    match fs file with
    | .ok cfg => if cfg.CurrentContext = "" then none else some cfg.CurrentContext
    | _ => none

/-- The `CurrentContext` of the highest-priority successfully loaded candidate
file that sets it to a non-empty value (empty when no file sets it). -/
def firstCurrentContext (fs : String → FileOutcome) : List String → String
  | [] => ""
  | f :: rest =>
    match fileCurrentContext fs f with
    | some cc => cc
    | none => firstCurrentContext fs rest

/-- The per-file error contributed to the aggregate by one candidate slot of
the first pass (one error per named file that exists but fails to load). -/
def fileLoadError (fs : String → FileOutcome) (file : String) : Option LoadError :=
  if file = "" then none
  else
    match fs file with
    | .failure => some (.errorLoadingConfigFile file)
    | _ => none

/-! ## Resolved-path invariant -/

/-- A path field is resolved when it is empty or already absolute; such
fields are fixed points of `resolveLocalPath`. -/
def resolvedPath (p : String) : Prop := p = "" ∨ isAbs p = true

instance (p : String) : Decidable (resolvedPath p) := by
  unfold resolvedPath; infer_instance

def ResolvedCluster (c : Cluster) : Prop := resolvedPath c.CertificateAuthority

def ResolvedAuthInfo (a : AuthInfo) : Prop :=
  resolvedPath a.AuthPath ∧ resolvedPath a.ClientCertificate ∧ resolvedPath a.ClientKey

/-- Every path field of the document is resolved. -/
def ResolvedConfig (c : Config) : Prop :=
  (∀ kv ∈ c.Clusters, ResolvedCluster kv.2) ∧ (∀ kv ∈ c.AuthInfos, ResolvedAuthInfo kv.2)

theorem resolveLocalPath_of_resolved {d p : String} (h : resolvedPath p) :
    resolveLocalPath d p = p := by
  cases h with
  | inl h => simp [resolveLocalPath, h]
  | inr h =>
    by_cases hp : p = ""
    · simp [resolveLocalPath, hp]
    · simp [resolveLocalPath, hp, h]

theorem resolvedPath_resolveLocalPath {d : String} (p : String) (hd : isAbs d = true) :
    resolvedPath (resolveLocalPath d p) := by
  by_cases hp : p = ""
  · exact .inl (by simp [resolveLocalPath, hp])
  · by_cases ha : isAbs p = true
    · exact .inr (by simp [resolveLocalPath, hp, ha])
    · refine .inr ?_
      have : resolveLocalPath d p = joinPath d p := by simp [resolveLocalPath, hp, ha]
      rw [this]
      exact (joinL_abs p.data hd).1

theorem resolveCluster_of_resolved {d : String} {c : Cluster} (h : ResolvedCluster c) :
    resolveCluster d c = c := by
  simp [resolveCluster, resolveLocalPath_of_resolved h]

theorem resolveAuthInfo_of_resolved {d : String} {a : AuthInfo} (h : ResolvedAuthInfo a) :
    resolveAuthInfo d a = a := by
  simp [resolveAuthInfo, resolveLocalPath_of_resolved h.1,
    resolveLocalPath_of_resolved h.2.1, resolveLocalPath_of_resolved h.2.2]

theorem resolvedCluster_resolveCluster {d : String} (c : Cluster) (hd : isAbs d = true) :
    ResolvedCluster (resolveCluster d c) :=
  resolvedPath_resolveLocalPath _ hd

theorem resolvedAuthInfo_resolveAuthInfo {d : String} (a : AuthInfo) (hd : isAbs d = true) :
    ResolvedAuthInfo (resolveAuthInfo d a) :=
  ⟨resolvedPath_resolveLocalPath _ hd, resolvedPath_resolveLocalPath _ hd,
    resolvedPath_resolveLocalPath _ hd⟩

theorem map_resolveCluster_of_resolved {d : String} {l : List (String × Cluster)}
    (hl : ∀ kv ∈ l, ResolvedCluster kv.2) :
    l.map (fun kv => (kv.1, resolveCluster d kv.2)) = l := by
  induction l with
  | nil => rfl
  | cons kv rest ih =>
    simp only [List.map_cons, List.cons.injEq]
    refine ⟨?_, ih fun x hx => hl x (List.mem_cons_of_mem _ hx)⟩
    rw [resolveCluster_of_resolved (hl kv (List.mem_cons_self _ _))]

theorem map_resolveAuthInfo_of_resolved {d : String} {l : List (String × AuthInfo)}
    (hl : ∀ kv ∈ l, ResolvedAuthInfo kv.2) :
    l.map (fun kv => (kv.1, resolveAuthInfo d kv.2)) = l := by
  induction l with
  | nil => rfl
  | cons kv rest ih =>
    simp only [List.map_cons, List.cons.injEq]
    refine ⟨?_, ih fun x hx => hl x (List.mem_cons_of_mem _ hx)⟩
    rw [resolveAuthInfo_of_resolved (hl kv (List.mem_cons_self _ _))]

theorem resolveLocalPaths_of_resolved {cwd filename : String} {c : Config}
    (h : ResolvedConfig c) : resolveLocalPaths cwd filename c = c := by
  unfold resolveLocalPaths
  by_cases hf : filename = ""
  · simp [hf]
  · simp only [hf, if_neg hf]
    rw [map_resolveCluster_of_resolved h.1, map_resolveAuthInfo_of_resolved h.2]
    simp

/-! ## Association-list lemmas -/

@[simp]
theorem oOr_some {α : Type} (v : α) (b : Option α) : oOr (some v) b = some v := rfl

@[simp]
theorem oOr_none_left {α : Type} (b : Option α) : oOr none b = b := rfl

@[simp]
theorem oOr_none_right {α : Type} (a : Option α) : oOr a none = a := by
  cases a <;> rfl

theorem oOr_assoc {α : Type} (a b c : Option α) :
    oOr (oOr a b) c = oOr a (oOr b c) := by
  cases a <;> rfl

theorem alistFind_append {α : Type} (k : String) (l₁ l₂ : List (String × α)) :
    alistFind k (l₁ ++ l₂) = oOr (alistFind k l₁) (alistFind k l₂) := by
  induction l₁ with
  | nil => simp [alistFind]
  | cons kv rest ih =>
    by_cases h : kv.1 = k
    · simp [alistFind, h]
    · simp [alistFind, h, ih]

theorem alistFind_filter_key {α : Type} (k : String) (p : String → Bool)
    (l : List (String × α)) :
    alistFind k (l.filter (fun kv => p kv.1)) = if p k then alistFind k l else none := by
  induction l with
  | nil => simp [alistFind]
  | cons kv rest ih =>
    obtain ⟨k', v'⟩ := kv
    simp only [List.filter_cons]
    by_cases hp : p k'
    · by_cases hk : k' = k
      · subst hk; simp [alistFind, hp]
      · simp [alistFind, hp, hk, ih]
    · by_cases hk : k' = k
      · subst hk; simp [alistFind, hp, ih]
      · simp [alistFind, hp, hk, ih]

theorem alistFind_map_val {α β : Type} (k : String) (f : α → β) (l : List (String × α)) :
    alistFind k (l.map (fun kv => (kv.1, f kv.2))) = (alistFind k l).map f := by
  induction l with
  | nil => simp [alistFind]
  | cons kv rest ih =>
    by_cases h : kv.1 = k
    · simp [alistFind, h]
    · simp [alistFind, h, ih]

theorem alistFind_mem {α : Type} {k : String} {v : α} {l : List (String × α)}
    (h : alistFind k l = some v) : (k, v) ∈ l := by
  induction l with
  | nil => simp [alistFind] at h
  | cons kv rest ih =>
    obtain ⟨k', v'⟩ := kv
    by_cases hk : k' = k
    · subst hk
      simp only [alistFind, if_pos rfl] at h
      injection h with h
      subst h
      exact List.mem_cons_self _ _
    · simp only [alistFind, if_neg hk] at h
      exact List.mem_cons_of_mem _ (ih h)

theorem mergeMapL_find {α : Type} (k : String) (dst src : List (String × α)) :
    alistFind k (mergeMapL dst src) = oOr (alistFind k dst) (alistFind k src) := by
  unfold mergeMapL
  rw [alistFind_append, alistFind_filter_key k (fun x => (alistFind x dst).isNone)]
  cases h : alistFind k dst <;> simp [h]

/-! ## Invariant and per-step lemmas for the merge passes -/

theorem resolvedConfig_newConfig : ResolvedConfig NewConfig := by
  constructor <;> simp [NewConfig]

theorem resolvedConfig_resolveLocalPaths {cwd : String} (filename : String) (c : Config)
    (hf : filename ≠ "") (hcwd : isAbs cwd = true) :
    ResolvedConfig (resolveLocalPaths cwd filename c) := by
  have hd : isAbs (absPath cwd (dirPath filename)) = true := (absPath_abs cwd _ hcwd).1
  unfold resolveLocalPaths
  simp only [if_neg hf]
  constructor
  · intro kv hkv
    simp only [List.mem_map] at hkv
    obtain ⟨kv', _, hkv'⟩ := hkv
    rw [← hkv']
    exact resolvedCluster_resolveCluster _ hd
  · intro kv hkv
    simp only [List.mem_map] at hkv
    obtain ⟨kv', _, hkv'⟩ := hkv
    rw [← hkv']
    exact resolvedAuthInfo_resolveAuthInfo _ hd

theorem mergeConfigWithFile_empty (fs : String → FileOutcome) (acc : Config) :
    mergeConfigWithFile fs acc "" = (acc, none) := by
  simp [mergeConfigWithFile]

theorem passStep_empty (fs : String → FileOutcome) (cwd : String) (acc : Config) :
    passStep fs cwd acc "" = acc := by
  simp [passStep, mergeConfigWithFile, resolveLocalPaths]

theorem resolvedConfig_passStep {fs : String → FileOutcome} {cwd : String} {acc : Config}
    (file : String) (hcwd : isAbs cwd = true) (hacc : ResolvedConfig acc) :
    ResolvedConfig (passStep fs cwd acc file) := by
  by_cases hf : file = ""
  · rw [hf, passStep_empty]; exact hacc
  · exact resolvedConfig_resolveLocalPaths file _ hf hcwd

theorem resolvedConfig_foldl {fs : String → FileOutcome} {cwd : String}
    (files : List String) (acc : Config) (hcwd : isAbs cwd = true)
    (hacc : ResolvedConfig acc) :
    ResolvedConfig (files.foldl (passStep fs cwd) acc) := by
  induction files generalizing acc with
  | nil => exact hacc
  | cons f rest ih =>
    exact ih _ (resolvedConfig_passStep f hcwd hacc)

theorem resolveLocalPaths_contexts (cwd filename : String) (c : Config) :
    (resolveLocalPaths cwd filename c).Contexts = c.Contexts := by
  unfold resolveLocalPaths
  by_cases hf : filename = "" <;> simp [hf]

theorem resolveLocalPaths_currentContext (cwd filename : String) (c : Config) :
    (resolveLocalPaths cwd filename c).CurrentContext = c.CurrentContext := by
  unfold resolveLocalPaths
  by_cases hf : filename = "" <;> simp [hf]

theorem resolveLocalPaths_clusters (cwd : String) {filename : String} (c : Config)
    (hf : filename ≠ "") :
    (resolveLocalPaths cwd filename c).Clusters =
      c.Clusters.map (fun kv => (kv.1, resolveCluster (absPath cwd (dirPath filename)) kv.2)) := by
  unfold resolveLocalPaths
  simp [hf]

theorem resolveLocalPaths_authInfos (cwd : String) {filename : String} (c : Config)
    (hf : filename ≠ "") :
    (resolveLocalPaths cwd filename c).AuthInfos =
      c.AuthInfos.map (fun kv => (kv.1, resolveAuthInfo (absPath cwd (dirPath filename)) kv.2)) := by
  unfold resolveLocalPaths
  simp [hf]

theorem passStep_clusters_find {fs : String → FileOutcome} {cwd : String} {acc : Config}
    (file k : String) (hcwd : isAbs cwd = true) (hacc : ResolvedConfig acc) :
    alistFind k (passStep fs cwd acc file).Clusters =
      oOr (alistFind k acc.Clusters) (fileClusterDef fs cwd file k) := by
  by_cases hf : file = ""
  · rw [hf, passStep_empty]
    simp [fileClusterDef]
  · unfold passStep mergeConfigWithFile fileClusterDef
    simp only [if_neg hf]
    cases ho : fs file with
    | missing =>
      rw [resolveLocalPaths_of_resolved hacc]
      simp
    | failure =>
      rw [resolveLocalPaths_of_resolved hacc]
      simp
    | ok cfg =>
      rw [resolveLocalPaths_clusters cwd _ hf]
      simp only [mergoMerge]
      rw [alistFind_map_val, mergeMapL_find]
      cases hdst : alistFind k acc.Clusters with
      | some v =>
        have hv : ResolvedCluster v := hacc.1 _ (alistFind_mem hdst)
        simp [resolveCluster_of_resolved hv]
      | none => simp

theorem passStep_authInfos_find {fs : String → FileOutcome} {cwd : String} {acc : Config}
    (file k : String) (hcwd : isAbs cwd = true) (hacc : ResolvedConfig acc) :
    alistFind k (passStep fs cwd acc file).AuthInfos =
      oOr (alistFind k acc.AuthInfos) (fileAuthInfoDef fs cwd file k) := by
  by_cases hf : file = ""
  · rw [hf, passStep_empty]
    simp [fileAuthInfoDef]
  · unfold passStep mergeConfigWithFile fileAuthInfoDef
    simp only [if_neg hf]
    cases ho : fs file with
    | missing =>
      rw [resolveLocalPaths_of_resolved hacc]
      simp
    | failure =>
      rw [resolveLocalPaths_of_resolved hacc]
      simp
    | ok cfg =>
      rw [resolveLocalPaths_authInfos cwd _ hf]
      simp only [mergoMerge]
      rw [alistFind_map_val, mergeMapL_find]
      cases hdst : alistFind k acc.AuthInfos with
      | some v =>
        have hv : ResolvedAuthInfo v := hacc.2 _ (alistFind_mem hdst)
        simp [resolveAuthInfo_of_resolved hv]
      | none => simp

theorem passStep_contexts_find {fs : String → FileOutcome} {cwd : String} {acc : Config}
    (file k : String) :
    alistFind k (passStep fs cwd acc file).Contexts =
      oOr (alistFind k acc.Contexts) (fileContextDef fs file k) := by
  by_cases hf : file = ""
  · rw [hf, passStep_empty]
    simp [fileContextDef]
  · unfold passStep mergeConfigWithFile fileContextDef
    simp only [if_neg hf]
    cases ho : fs file with
    | missing => rw [resolveLocalPaths_contexts]; simp
    | failure => rw [resolveLocalPaths_contexts]; simp
    | ok cfg =>
      rw [resolveLocalPaths_contexts]
      simp only [mergoMerge]
      rw [mergeMapL_find]

theorem passStep_currentContext {fs : String → FileOutcome} {cwd : String} {acc : Config}
    (file : String) :
    (passStep fs cwd acc file).CurrentContext =
      match fileCurrentContext fs file with
      | some cc => cc
      | none => acc.CurrentContext := by
  by_cases hf : file = ""
  · rw [hf, passStep_empty]
    simp [fileCurrentContext]
  · unfold passStep mergeConfigWithFile fileCurrentContext
    simp only [if_neg hf]
    cases ho : fs file with
    | missing => rw [resolveLocalPaths_currentContext]
    | failure => rw [resolveLocalPaths_currentContext]
    | ok cfg =>
      rw [resolveLocalPaths_currentContext]
      simp only [mergoMerge]
      by_cases hcc : cfg.CurrentContext = "" <;> simp [hcc]

theorem foldl_clusters_find {fs : String → FileOutcome} {cwd : String}
    (files : List String) (acc : Config) (k : String)
    (hcwd : isAbs cwd = true) (hacc : ResolvedConfig acc) :
    alistFind k (files.foldl (passStep fs cwd) acc).Clusters =
      oOr (alistFind k acc.Clusters) (firstClusterDef fs cwd files k) := by
  induction files generalizing acc with
  | nil => simp [firstClusterDef]
  | cons f rest ih =>
    rw [List.foldl_cons, ih _ (resolvedConfig_passStep f hcwd hacc),
      passStep_clusters_find f k hcwd hacc, firstClusterDef, oOr_assoc]

theorem foldl_authInfos_find {fs : String → FileOutcome} {cwd : String}
    (files : List String) (acc : Config) (k : String)
    (hcwd : isAbs cwd = true) (hacc : ResolvedConfig acc) :
    alistFind k (files.foldl (passStep fs cwd) acc).AuthInfos =
      oOr (alistFind k acc.AuthInfos) (firstAuthInfoDef fs cwd files k) := by
  induction files generalizing acc with
  | nil => simp [firstAuthInfoDef]
  | cons f rest ih =>
    rw [List.foldl_cons, ih _ (resolvedConfig_passStep f hcwd hacc),
      passStep_authInfos_find f k hcwd hacc, firstAuthInfoDef, oOr_assoc]

theorem foldl_contexts_find {fs : String → FileOutcome} {cwd : String}
    (files : List String) (acc : Config) (k : String) :
    alistFind k (files.foldl (passStep fs cwd) acc).Contexts =
      oOr (alistFind k acc.Contexts) (firstContextDef fs files k) := by
  induction files generalizing acc with
  | nil => simp [firstContextDef]
  | cons f rest ih =>
    rw [List.foldl_cons, ih, passStep_contexts_find f k, firstContextDef, oOr_assoc]

/-- The scalar accumulation of one pass: fold the per-file `CurrentContext`
contributions over the file list, starting from `init`. -/
def foldCurrentContext (fs : String → FileOutcome) (init : String) : List String → String
  | [] => init
  | f :: rest =>
    foldCurrentContext fs
      (match fileCurrentContext fs f with
       | some cc => cc
       | none => init) rest

theorem foldl_currentContext {fs : String → FileOutcome} {cwd : String}
    (files : List String) (acc : Config) :
    (files.foldl (passStep fs cwd) acc).CurrentContext =
      foldCurrentContext fs acc.CurrentContext files := by
  induction files generalizing acc with
  | nil => rfl
  | cons f rest ih =>
    rw [List.foldl_cons, ih, foldCurrentContext, passStep_currentContext]

theorem foldCurrentContext_append (fs : String → FileOutcome) (init : String)
    (l₁ l₂ : List String) :
    foldCurrentContext fs init (l₁ ++ l₂) =
      foldCurrentContext fs (foldCurrentContext fs init l₁) l₂ := by
  induction l₁ generalizing init with
  | nil => rfl
  | cons f rest ih => rw [List.cons_append, foldCurrentContext, foldCurrentContext, ih]

theorem foldCurrentContext_reverse (fs : String → FileOutcome) (l : List String) :
    foldCurrentContext fs "" l.reverse = firstCurrentContext fs l := by
  induction l with
  | nil => rfl
  | cons f rest ih =>
    rw [List.reverse_cons, foldCurrentContext_append, ih, firstCurrentContext]
    cases h : fileCurrentContext fs f <;> simp [foldCurrentContext, h]

theorem mergeConfigWithFile_snd (fs : String → FileOutcome) (acc : Config) (file : String) :
    (mergeConfigWithFile fs acc file).2 = fileLoadError fs file := by
  unfold mergeConfigWithFile fileLoadError
  by_cases hf : file = ""
  · simp [hf]
  · simp only [if_neg hf]
    cases fs file <;> rfl

theorem mapPass_eq (fs : String → FileOutcome) (cwd : String) (files : List String) :
    mapPass fs cwd files =
      (files.foldl (passStep fs cwd) NewConfig, files.filterMap (fileLoadError fs)) := by
  suffices h : ∀ (c : Config) (es : List LoadError),
      files.foldl
        (fun acc file =>
          let merged := mergeConfigWithFile fs acc.1 file
          (resolveLocalPaths cwd file merged.1, acc.2 ++ merged.2.toList))
        (c, es) =
      (files.foldl (passStep fs cwd) c, es ++ files.filterMap (fileLoadError fs)) by
    have := h NewConfig []
    simpa [mapPass] using this
  induction files with
  | nil => intro c es; simp
  | cons f rest ih =>
    intro c es
    rw [List.foldl_cons, List.foldl_cons]
    rw [ih]
    rw [List.filterMap_cons]
    have hsnd := mergeConfigWithFile_snd fs c f
    cases he : fileLoadError fs f with
    | none =>
      simp only [passStep]
      rw [hsnd, he]
      simp
    | some e =>
      simp only [passStep]
      rw [hsnd, he]
      simp

theorem mergeMapL_empty_left {α : Type} (l : List (String × α)) : mergeMapL [] l = l := by
  unfold mergeMapL
  simp [alistFind]

theorem mergoMerge_empty_left (c : Config) : mergoMerge NewConfig c = c := by
  unfold mergoMerge NewConfig
  rw [mergeMapL_empty_left, mergeMapL_empty_left, mergeMapL_empty_left]
  by_cases hcc : c.CurrentContext = ""
  · simp only [hcc, if_pos rfl]
    rw [← hcc]
    simp
  · simp only [if_neg hcc]

/-- The combined result of `Load` is just the mergo merge of the two pass
results (merging the map pass into an empty document is the identity). -/
theorem load_eq (rules : ClientConfigLoadingRules) (fs : String → FileOutcome) (cwd : String) :
    rules.Load fs cwd =
      (mergoMerge ((flattenRules rules.Rules).foldl (passStep fs cwd) NewConfig)
        (nonMapPass fs cwd (flattenRules rules.Rules)),
       commandLinePathCheck fs rules ++ (flattenRules rules.Rules).filterMap (fileLoadError fs)) := by
  simp only [ClientConfigLoadingRules.Load, mapPass_eq, mergoMerge_empty_left]

theorem firstClusterDef_eq_none_iff (fs : String → FileOutcome) (cwd : String)
    (l : List String) (k : String) :
    firstClusterDef fs cwd l k = none ↔ ∀ f ∈ l, fileClusterDef fs cwd f k = none := by
  induction l with
  | nil => simp [firstClusterDef]
  | cons f rest ih =>
    rw [firstClusterDef]
    cases h : fileClusterDef fs cwd f k <;> simp [h, ih]

theorem firstAuthInfoDef_eq_none_iff (fs : String → FileOutcome) (cwd : String)
    (l : List String) (k : String) :
    firstAuthInfoDef fs cwd l k = none ↔ ∀ f ∈ l, fileAuthInfoDef fs cwd f k = none := by
  induction l with
  | nil => simp [firstAuthInfoDef]
  | cons f rest ih =>
    rw [firstAuthInfoDef]
    cases h : fileAuthInfoDef fs cwd f k <;> simp [h, ih]

theorem firstContextDef_eq_none_iff (fs : String → FileOutcome)
    (l : List String) (k : String) :
    firstContextDef fs l k = none ↔ ∀ f ∈ l, fileContextDef fs f k = none := by
  induction l with
  | nil => simp [firstContextDef]
  | cons f rest ih =>
    rw [firstContextDef]
    cases h : fileContextDef fs f k <;> simp [h, ih]

theorem fileCurrentContext_ne_empty {fs : String → FileOutcome} {f cc : String}
    (h : fileCurrentContext fs f = some cc) : cc ≠ "" := by
  unfold fileCurrentContext at h
  by_cases hf : f = ""
  · simp [hf] at h
  · simp only [if_neg hf] at h
    cases ho : fs f with
    | missing => rw [ho] at h; simp at h
    | failure => rw [ho] at h; simp at h
    | ok cfg =>
      rw [ho] at h
      by_cases hc : cfg.CurrentContext = ""
      · simp [hc] at h
      · simp only [if_neg hc] at h
        injection h with h
        rw [← h]
        exact hc

theorem firstCurrentContext_eq_empty_iff (fs : String → FileOutcome) (l : List String) :
    firstCurrentContext fs l = "" ↔ ∀ f ∈ l, fileCurrentContext fs f = none := by
  induction l with
  | nil => simp [firstCurrentContext]
  | cons f rest ih =>
    rw [firstCurrentContext]
    cases h : fileCurrentContext fs f with
    | none => simp [h, ih]
    | some cc => simp [h, fileCurrentContext_ne_empty h, ih]

theorem firstClusterDef_reverse_none {fs : String → FileOutcome} {cwd : String}
    {l : List String} {k : String} (h : firstClusterDef fs cwd l k = none) :
    firstClusterDef fs cwd l.reverse k = none := by
  rw [firstClusterDef_eq_none_iff] at h ⊢
  intro f hf
  exact h f (List.mem_reverse.mp hf)

theorem firstAuthInfoDef_reverse_none {fs : String → FileOutcome} {cwd : String}
    {l : List String} {k : String} (h : firstAuthInfoDef fs cwd l k = none) :
    firstAuthInfoDef fs cwd l.reverse k = none := by
  rw [firstAuthInfoDef_eq_none_iff] at h ⊢
  intro f hf
  exact h f (List.mem_reverse.mp hf)

theorem firstContextDef_reverse_none {fs : String → FileOutcome}
    {l : List String} {k : String} (h : firstContextDef fs l k = none) :
    firstContextDef fs l.reverse k = none := by
  rw [firstContextDef_eq_none_iff] at h ⊢
  intro f hf
  exact h f (List.mem_reverse.mp hf)

theorem mergoMerge_clusters_find (k : String) (a b : Config) :
    alistFind k (mergoMerge a b).Clusters = oOr (alistFind k a.Clusters) (alistFind k b.Clusters) :=
  mergeMapL_find k _ _

/-! ## Claim theorems -/

/-- C1: for every flattened candidate list, each of `Load`'s map-valued result
fields (`Clusters`, `AuthInfos`, `Contexts`) maps each key defined by at least
one successfully loaded candidate file to the entire entry taken from the
highest-priority (first, in flattened order) file that defines that key — with
its local paths resolved against that same file's directory, which is part of
taking the entry from that file — while keys defined only in lower-priority
files are still present; entries under the same key in lower-priority files
contribute nothing, not even sub-fields the winning entry left empty. -/
theorem load_map_first_wins (rules : ClientConfigLoadingRules)
    (fs : String → FileOutcome) (cwd : String) (hcwd : isAbs cwd = true) (k : String) :
    alistFind k ((rules.Load fs cwd).1.Clusters) =
      firstClusterDef fs cwd (flattenRules rules.Rules) k ∧
    alistFind k ((rules.Load fs cwd).1.AuthInfos) =
      firstAuthInfoDef fs cwd (flattenRules rules.Rules) k ∧
    alistFind k ((rules.Load fs cwd).1.Contexts) =
      firstContextDef fs (flattenRules rules.Rules) k := by
  rw [load_eq]
  refine ⟨?_, ?_, ?_⟩
  · simp only [mergoMerge]
    rw [mergeMapL_find,
      foldl_clusters_find _ _ _ hcwd resolvedConfig_newConfig,
      nonMapPass,
      foldl_clusters_find _ _ _ hcwd resolvedConfig_newConfig]
    simp only [NewConfig, alistFind, oOr_none_left]
    cases h : firstClusterDef fs cwd (flattenRules rules.Rules) k with
    | some v => simp
    | none => simp [firstClusterDef_reverse_none h]
  · simp only [mergoMerge]
    rw [mergeMapL_find,
      foldl_authInfos_find _ _ _ hcwd resolvedConfig_newConfig,
      nonMapPass,
      foldl_authInfos_find _ _ _ hcwd resolvedConfig_newConfig]
    simp only [NewConfig, alistFind, oOr_none_left]
    cases h : firstAuthInfoDef fs cwd (flattenRules rules.Rules) k with
    | some v => simp
    | none => simp [firstAuthInfoDef_reverse_none h]
  · simp only [mergoMerge]
    rw [mergeMapL_find,
      foldl_contexts_find,
      nonMapPass,
      foldl_contexts_find]
    simp only [NewConfig, alistFind, oOr_none_left]
    cases h : firstContextDef fs (flattenRules rules.Rules) k with
    | some v => simp
    | none => simp [firstContextDef_reverse_none h]

/-- Witness for C1 on a concrete two-candidate setup: the command-line file
defines cluster `a` (with a relative CA path), the home file redefines `a`
and adds `b`. -/
theorem load_map_first_wins_witness :
    isAbs "/w" = true ∧
    (alistFind "a" (((⟨[⟨"/d1/a.cfg", "", "", "/d2/b.cfg"⟩]⟩ :
          ClientConfigLoadingRules).Load
        (fun s =>
          if s = "/d1/a.cfg" then
            .ok ⟨[("a", ⟨"https://h1", false, "ca.crt"⟩)], [], [], "x"⟩
          else if s = "/d2/b.cfg" then
            .ok ⟨[("a", ⟨"https://h2", true, "/zz"⟩), ("b", ⟨"https://h3", false, ""⟩)], [], [], "y"⟩
          else .missing) "/w").1.Clusters) =
      firstClusterDef
        (fun s =>
          if s = "/d1/a.cfg" then
            .ok ⟨[("a", ⟨"https://h1", false, "ca.crt"⟩)], [], [], "x"⟩
          else if s = "/d2/b.cfg" then
            .ok ⟨[("a", ⟨"https://h2", true, "/zz"⟩), ("b", ⟨"https://h3", false, ""⟩)], [], [], "y"⟩
          else .missing) "/w"
        (flattenRules [⟨"/d1/a.cfg", "", "", "/d2/b.cfg"⟩]) "a" ∧
     alistFind "a" (((⟨[⟨"/d1/a.cfg", "", "", "/d2/b.cfg"⟩]⟩ :
          ClientConfigLoadingRules).Load
        (fun s =>
          if s = "/d1/a.cfg" then
            .ok ⟨[("a", ⟨"https://h1", false, "ca.crt"⟩)], [], [], "x"⟩
          else if s = "/d2/b.cfg" then
            .ok ⟨[("a", ⟨"https://h2", true, "/zz"⟩), ("b", ⟨"https://h3", false, ""⟩)], [], [], "y"⟩
          else .missing) "/w").1.AuthInfos) =
      firstAuthInfoDef
        (fun s =>
          if s = "/d1/a.cfg" then
            .ok ⟨[("a", ⟨"https://h1", false, "ca.crt"⟩)], [], [], "x"⟩
          else if s = "/d2/b.cfg" then
            .ok ⟨[("a", ⟨"https://h2", true, "/zz"⟩), ("b", ⟨"https://h3", false, ""⟩)], [], [], "y"⟩
          else .missing) "/w"
        (flattenRules [⟨"/d1/a.cfg", "", "", "/d2/b.cfg"⟩]) "a" ∧
     alistFind "a" (((⟨[⟨"/d1/a.cfg", "", "", "/d2/b.cfg"⟩]⟩ :
          ClientConfigLoadingRules).Load
        (fun s =>
          if s = "/d1/a.cfg" then
            .ok ⟨[("a", ⟨"https://h1", false, "ca.crt"⟩)], [], [], "x"⟩
          else if s = "/d2/b.cfg" then
            .ok ⟨[("a", ⟨"https://h2", true, "/zz"⟩), ("b", ⟨"https://h3", false, ""⟩)], [], [], "y"⟩
          else .missing) "/w").1.Contexts) =
      firstContextDef
        (fun s =>
          if s = "/d1/a.cfg" then
            .ok ⟨[("a", ⟨"https://h1", false, "ca.crt"⟩)], [], [], "x"⟩
          else if s = "/d2/b.cfg" then
            .ok ⟨[("a", ⟨"https://h2", true, "/zz"⟩), ("b", ⟨"https://h3", false, ""⟩)], [], [], "y"⟩
          else .missing)
        (flattenRules [⟨"/d1/a.cfg", "", "", "/d2/b.cfg"⟩]) "a") :=
  ⟨by decide,
   load_map_first_wins ⟨[⟨"/d1/a.cfg", "", "", "/d2/b.cfg"⟩]⟩
     (fun s =>
       if s = "/d1/a.cfg" then
         .ok ⟨[("a", ⟨"https://h1", false, "ca.crt"⟩)], [], [], "x"⟩
       else if s = "/d2/b.cfg" then
         .ok ⟨[("a", ⟨"https://h2", true, "/zz"⟩), ("b", ⟨"https://h3", false, ""⟩)], [], [], "y"⟩
       else .missing) "/w" (by decide) "a"⟩

theorem foldCurrentContext_of_none {fs : String → FileOutcome} {l : List String}
    (h : ∀ f ∈ l, fileCurrentContext fs f = none) (init : String) :
    foldCurrentContext fs init l = init := by
  induction l with
  | nil => rfl
  | cons f rest ih =>
    rw [foldCurrentContext, h f (List.mem_cons_self _ _)]
    exact ih fun x hx => h x (List.mem_cons_of_mem _ hx)

/-- C2: for every flattened candidate list, the `CurrentContext` of the
document returned by `Load` equals the `CurrentContext` of the
highest-priority successfully loaded candidate file that sets it to a
non-empty value; in particular, when the highest-priority file sets it to
`"x"` and a lower-priority file sets it to `"y"`, the merged result's
`CurrentContext` is `"x"`. -/
theorem load_currentContext_highest_priority :
    (∀ (rules : ClientConfigLoadingRules) (fs : String → FileOutcome) (cwd : String),
      (rules.Load fs cwd).1.CurrentContext =
        firstCurrentContext fs (flattenRules rules.Rules)) ∧
    ((⟨[⟨"/hi.cfg", "", "", "/lo.cfg"⟩]⟩ : ClientConfigLoadingRules).Load
        (fun s =>
          if s = "/hi.cfg" then .ok ⟨[], [], [], "x"⟩
          else if s = "/lo.cfg" then .ok ⟨[], [], [], "y"⟩
          else .missing) "/w").1.CurrentContext = "x" := by
  constructor
  · intro rules fs cwd
    rw [load_eq]
    simp only [mergoMerge, nonMapPass]
    rw [foldl_currentContext, foldl_currentContext]
    simp only [show NewConfig.CurrentContext = "" from rfl]
    rw [foldCurrentContext_reverse]
    cases hfirst : firstCurrentContext fs (flattenRules rules.Rules) with
    | mk l =>
      by_cases h : firstCurrentContext fs (flattenRules rules.Rules) = ""
      · rw [← hfirst, h]
        have hall := (firstCurrentContext_eq_empty_iff fs _).mp h
        rw [foldCurrentContext_of_none hall]
        simp [NewConfig, h]
      · rw [← hfirst]
        simp [if_neg h, NewConfig]
  · decide

theorem joinPath_abs (d p : String) (hd : isAbs d = true) :
    isAbs (joinPath d p) = true ∧ joinPath d p ≠ "" := by
  have h := joinL_abs p.data (a := d.data) hd
  refine ⟨h.1, ?_⟩
  intro hemp
  exact h.2 (congrArg String.data hemp)

/-- C6: `resolveLocalPath` — the rewrite applied to every
certificate-authority, auth-path, client-certificate and client-key field —
maps the empty string to itself and any already-absolute path to itself, so
that (for the absolute starting directories the loader always supplies)
applying the resolution twice gives the same result as applying it once; and
it maps any relative path `p` anchored at directory `d` to `join(d, p)`. -/
theorem resolveLocalPath_spec (d p : String) :
    (p = "" → resolveLocalPath d p = p) ∧
    (isAbs p = true → resolveLocalPath d p = p) ∧
    (isAbs d = true →
      resolveLocalPath d (resolveLocalPath d p) = resolveLocalPath d p) ∧
    (p ≠ "" → isAbs p = false → resolveLocalPath d p = joinPath d p) := by
  refine ⟨fun h => by simp [resolveLocalPath, h], fun h => ?_, fun hd => ?_, fun h h' => ?_⟩
  · by_cases hp : p = ""
    · simp [resolveLocalPath, hp]
    · simp [resolveLocalPath, hp, h]
  · exact resolveLocalPath_of_resolved (resolvedPath_resolveLocalPath p hd)
  · simp [resolveLocalPath, h, h']

/-- Witness for C6, matching the spec's P4 example: a relative `ca.crt`
anchored at `/home/u/.kube` resolves to `/home/u/.kube/ca.crt`, an absolute
path is unchanged, and resolution is idempotent. -/
theorem resolveLocalPath_spec_witness :
    (isAbs "/home/u/.kube" = true ∧
     resolveLocalPath "/home/u/.kube" (resolveLocalPath "/home/u/.kube" "ca.crt") =
       resolveLocalPath "/home/u/.kube" "ca.crt") ∧
    ("ca.crt" ≠ "" ∧ isAbs "ca.crt" = false ∧
     resolveLocalPath "/home/u/.kube" "ca.crt" = joinPath "/home/u/.kube" "ca.crt") ∧
    (isAbs "/etc/ca.pem" = true ∧
     resolveLocalPath "/home/u/.kube" "/etc/ca.pem" = "/etc/ca.pem") ∧
    resolveLocalPath (absPath "/w" (dirPath "/home/u/.kube/config")) "ca.crt" =
      "/home/u/.kube/ca.crt" :=
  ⟨⟨by decide, (resolveLocalPath_spec "/home/u/.kube" "ca.crt").2.2.1 (by decide)⟩,
   ⟨by decide, by decide,
    (resolveLocalPath_spec "/home/u/.kube" "ca.crt").2.2.2 (by decide) (by decide)⟩,
   ⟨by decide, (resolveLocalPath_spec "/home/u/.kube" "/etc/ca.pem").2.1 (by decide)⟩,
   by decide⟩

/-- C9: for every source filename and config document, `resolveLocalPaths`
preserves the key lists of `Clusters` and `AuthInfos` and modifies only the
`CertificateAuthority` field of cluster entries and the `AuthPath`,
`ClientCertificate` and `ClientKey` fields of auth-info entries: each
cluster's `Server` and `InsecureSkipTLSVerify`, each auth info's `Token`, all
`Contexts`, and `CurrentContext` are left exactly as they were. -/
theorem resolveLocalPaths_frame (cwd filename : String) (config : Config) :
    (resolveLocalPaths cwd filename config).Contexts = config.Contexts ∧
    (resolveLocalPaths cwd filename config).CurrentContext = config.CurrentContext ∧
    (resolveLocalPaths cwd filename config).Clusters.map Prod.fst =
      config.Clusters.map Prod.fst ∧
    (resolveLocalPaths cwd filename config).AuthInfos.map Prod.fst =
      config.AuthInfos.map Prod.fst ∧
    (∀ k, (alistFind k (resolveLocalPaths cwd filename config).Clusters).map
        (fun c => (c.Server, c.InsecureSkipTLSVerify)) =
      (alistFind k config.Clusters).map (fun c => (c.Server, c.InsecureSkipTLSVerify))) ∧
    (∀ k, (alistFind k (resolveLocalPaths cwd filename config).AuthInfos).map AuthInfo.Token =
      (alistFind k config.AuthInfos).map AuthInfo.Token) := by
  by_cases hf : filename = ""
  · subst hf
    simp [resolveLocalPaths]
  · refine ⟨resolveLocalPaths_contexts _ _ _, resolveLocalPaths_currentContext _ _ _,
      ?_, ?_, fun k => ?_, fun k => ?_⟩
    · rw [resolveLocalPaths_clusters _ _ hf, List.map_map]
      rfl
    · rw [resolveLocalPaths_authInfos _ _ hf, List.map_map]
      rfl
    · rw [resolveLocalPaths_clusters _ _ hf, alistFind_map_val, Option.map_map]
      rfl
    · rw [resolveLocalPaths_authInfos _ _ hf, alistFind_map_val, Option.map_map]
      rfl

/-- C7: the error list returned by `Load` consists of exactly the errors of
the up-front command-line-path existence check followed by one error per
candidate file of the first (priority-order, map) pass that exists but fails
to read or decode; the second (reverse-order, scalar) pass over the same
candidate list contributes nothing to the returned aggregate. -/
theorem load_errors_first_pass_only (rules : ClientConfigLoadingRules)
    (fs : String → FileOutcome) (cwd : String) :
    (rules.Load fs cwd).2 =
      commandLinePathCheck fs rules ++
        (flattenRules rules.Rules).filterMap (fileLoadError fs) := by
  rw [load_eq]

theorem passStep_skip {fs : String → FileOutcome} {cwd : String} {acc : Config} {f : String}
    (hf : f = "" ∨ fs f = .missing) (hacc : ResolvedConfig acc) :
    passStep fs cwd acc f = acc := by
  by_cases he : f = ""
  · rw [he, passStep_empty]
  · cases hf with
    | inl h => exact absurd h he
    | inr h =>
      unfold passStep mergeConfigWithFile
      simp only [if_neg he, h]
      exact resolveLocalPaths_of_resolved hacc

theorem fileLoadError_skip {fs : String → FileOutcome} {f : String}
    (hf : f = "" ∨ fs f = .missing) : fileLoadError fs f = none := by
  by_cases he : f = ""
  · simp [fileLoadError, he]
  · cases hf with
    | inl h => exact absurd h he
    | inr h => simp [fileLoadError, he, h]

theorem foldl_passStep_skip {fs : String → FileOutcome} {cwd f : String}
    (hf : f = "" ∨ fs f = .missing) (hcwd : isAbs cwd = true) (l₁ l₂ : List String) :
    (l₁ ++ f :: l₂).foldl (passStep fs cwd) NewConfig =
      (l₁ ++ l₂).foldl (passStep fs cwd) NewConfig := by
  rw [List.foldl_append, List.foldl_append, List.foldl_cons,
    passStep_skip hf (resolvedConfig_foldl _ _ hcwd resolvedConfig_newConfig)]

theorem foldl_passStep_skip_reverse {fs : String → FileOutcome} {cwd f : String}
    (hf : f = "" ∨ fs f = .missing) (hcwd : isAbs cwd = true) (l₁ l₂ : List String) :
    (l₁ ++ f :: l₂).reverse.foldl (passStep fs cwd) NewConfig =
      (l₁ ++ l₂).reverse.foldl (passStep fs cwd) NewConfig := by
  rw [List.reverse_append, List.reverse_cons, List.reverse_append,
    List.foldl_append, List.foldl_append, List.foldl_append, List.foldl_cons,
    List.foldl_nil,
    passStep_skip hf (resolvedConfig_foldl _ _ hcwd resolvedConfig_newConfig)]

/-- C4: a nonexistent command-line-specified path is reported as exactly one
aggregated error while the merged document is still the one built from the
remaining candidates (the same document as with an empty command-line slot);
whereas an empty-string path, or a missing file in any other candidate slot,
is silently skipped — it contributes zero errors and nothing to either merge
pass. -/
theorem load_missing_cmdline_vs_optional :
    (∀ (first : ClientConfigLoadingRule) (rest : List ClientConfigLoadingRule)
        (fs : String → FileOutcome) (cwd : String),
      isAbs cwd = true →
      first.CommandLinePath ≠ "" →
      fs first.CommandLinePath = .missing →
      (∀ f ∈ flattenRules (first :: rest), fileLoadError fs f = none) →
      (ClientConfigLoadingRules.Load ⟨first :: rest⟩ fs cwd).2 =
        [LoadError.configFileDoesNotExist first.CommandLinePath] ∧
      (ClientConfigLoadingRules.Load ⟨first :: rest⟩ fs cwd).1 =
        (ClientConfigLoadingRules.Load ⟨{ first with CommandLinePath := "" } :: rest⟩ fs cwd).1) ∧
    (∀ (fs : String → FileOutcome) (cwd f : String) (l₁ l₂ : List String),
      isAbs cwd = true →
      (f = "" ∨ fs f = .missing) →
      mapPass fs cwd (l₁ ++ f :: l₂) = mapPass fs cwd (l₁ ++ l₂) ∧
      nonMapPass fs cwd (l₁ ++ f :: l₂) = nonMapPass fs cwd (l₁ ++ l₂)) := by
  constructor
  · intro first rest fs cwd hcwd hne hmiss hclean
    have hflat : flattenRules (first :: rest) =
        first.CommandLinePath :: (first.EnvVarPath :: first.CurrentDirectoryPath ::
          first.HomeDirectoryPath :: flattenRules rest) := by
      simp [flattenRules]
    have hflat' : flattenRules ({ first with CommandLinePath := "" } :: rest) =
        "" :: (first.EnvVarPath :: first.CurrentDirectoryPath ::
          first.HomeDirectoryPath :: flattenRules rest) := by
      simp [flattenRules]
    constructor
    · rw [load_eq]
      show commandLinePathCheck fs ⟨first :: rest⟩ ++ _ = _
      have hnil : (flattenRules (first :: rest)).filterMap (fileLoadError fs) = [] :=
        List.filterMap_eq_nil_iff.mpr hclean
      rw [hnil, List.append_nil]
      simp [commandLinePathCheck, hne, hmiss]
    · rw [load_eq, load_eq]
      show mergoMerge _ (nonMapPass _ _ _) = mergoMerge _ (nonMapPass _ _ _)
      rw [hflat, hflat']
      unfold nonMapPass
      have hhead : ∀ (g : String) (t : List String), (g = "" ∨ fs g = .missing) →
          (g :: t).foldl (passStep fs cwd) NewConfig = t.foldl (passStep fs cwd) NewConfig := by
        intro g t hg
        rw [List.foldl_cons, passStep_skip hg resolvedConfig_newConfig]
      have htail : ∀ (g : String) (t : List String), (g = "" ∨ fs g = .missing) →
          (g :: t).reverse.foldl (passStep fs cwd) NewConfig =
            t.reverse.foldl (passStep fs cwd) NewConfig := by
        intro g t hg
        rw [List.reverse_cons, List.foldl_append, List.foldl_cons, List.foldl_nil,
          passStep_skip hg (resolvedConfig_foldl _ _ hcwd resolvedConfig_newConfig)]
      rw [hhead _ _ (.inr hmiss), hhead _ _ (.inl rfl),
        htail _ _ (.inr hmiss), htail _ _ (.inl rfl)]
  · intro fs cwd f l₁ l₂ hcwd hf
    constructor
    · rw [mapPass_eq, mapPass_eq, foldl_passStep_skip hf hcwd]
      rw [List.filterMap_append, List.filterMap_append, List.filterMap_cons,
        fileLoadError_skip hf]
    · unfold nonMapPass
      exact foldl_passStep_skip_reverse hf hcwd l₁ l₂

/-- Fixture filesystem for the C4 witness: `/good` loads, everything else is
missing. -/
def c4fs : String → FileOutcome := fun s =>
  if s = "/good" then .ok ⟨[("b", ⟨"https://h3", false, ""⟩)], [], [], "y"⟩
  else .missing

/-- Fixture first rule for the C4 witness: nonexistent command-line path,
existing home-directory file. -/
def c4rule : ClientConfigLoadingRule := ⟨"/nope", "", "", "/good"⟩

/-- Witness for C4: with a nonexistent `/nope` on the command line and a
loadable `/good` in the home slot, `Load` reports exactly one error and
returns the same document as with an empty command-line slot; a missing
`/absent` in a non-command-line position is skipped by both passes. -/
theorem load_missing_cmdline_vs_optional_witness :
    (isAbs "/w" = true ∧ c4rule.CommandLinePath ≠ "" ∧
     c4fs c4rule.CommandLinePath = .missing ∧
     (∀ f ∈ flattenRules [c4rule], fileLoadError c4fs f = none) ∧
     (ClientConfigLoadingRules.Load ⟨[c4rule]⟩ c4fs "/w").2 =
       [LoadError.configFileDoesNotExist c4rule.CommandLinePath] ∧
     (ClientConfigLoadingRules.Load ⟨[c4rule]⟩ c4fs "/w").1 =
       (ClientConfigLoadingRules.Load ⟨[{ c4rule with CommandLinePath := "" }]⟩ c4fs "/w").1) ∧
    ((("/absent" : String) = "" ∨ c4fs "/absent" = .missing) ∧
     mapPass c4fs "/w" (["/good"] ++ "/absent" :: []) = mapPass c4fs "/w" (["/good"] ++ []) ∧
     nonMapPass c4fs "/w" (["/good"] ++ "/absent" :: []) =
       nonMapPass c4fs "/w" (["/good"] ++ [])) :=
  ⟨⟨by decide, by decide, by decide, by decide,
    (load_missing_cmdline_vs_optional.1 c4rule [] c4fs "/w"
      (by decide) (by decide) (by decide) (by decide)).1,
    (load_missing_cmdline_vs_optional.1 c4rule [] c4fs "/w"
      (by decide) (by decide) (by decide) (by decide)).2⟩,
   ⟨Or.inr (by decide),
    (load_missing_cmdline_vs_optional.2 c4fs "/w" "/absent" ["/good"] []
      (by decide) (Or.inr (by decide))).1,
    (load_missing_cmdline_vs_optional.2 c4fs "/w" "/absent" ["/good"] []
      (by decide) (Or.inr (by decide))).2⟩⟩

theorem config_ext {a b : Config} (h1 : a.Clusters = b.Clusters)
    (h2 : a.AuthInfos = b.AuthInfos) (h3 : a.Contexts = b.Contexts)
    (h4 : a.CurrentContext = b.CurrentContext) : a = b := by
  cases a; cases b; simp_all

/-- One resolve-before-merge step, the discipline §4.2 of the spec describes:
the just-decoded document has its paths resolved, once, against its own
file's directory, and is then merged into the accumulator, which itself is
never passed through resolution. -/
def specStep (fs : String → FileOutcome) (cwd : String) (acc : Config) (file : String) : Config :=
  if file = "" then acc
  else
    match fs file with
    | .ok cfg => mergoMerge acc (resolveLocalPaths cwd file cfg)
    | _ => acc

/-- The document produced by the two merge passes under the
resolve-before-merge discipline. -/
def specLoadConfig (rules : ClientConfigLoadingRules) (fs : String → FileOutcome)
    (cwd : String) : Config :=
  mergoMerge ((flattenRules rules.Rules).foldl (specStep fs cwd) NewConfig)
    ((flattenRules rules.Rules).reverse.foldl (specStep fs cwd) NewConfig)

theorem passStep_eq_specStep {fs : String → FileOutcome} {cwd : String} {acc : Config}
    (f : String) (hcwd : isAbs cwd = true) (hacc : ResolvedConfig acc) :
    passStep fs cwd acc f = specStep fs cwd acc f := by
  by_cases hf : f = ""
  · rw [hf, passStep_empty]
    simp [specStep]
  · unfold passStep specStep mergeConfigWithFile
    simp only [if_neg hf]
    cases ho : fs f with
    | missing => exact resolveLocalPaths_of_resolved hacc
    | failure => exact resolveLocalPaths_of_resolved hacc
    | ok cfg =>
      apply config_ext
      · rw [resolveLocalPaths_clusters _ _ hf]
        show (mergeMapL acc.Clusters cfg.Clusters).map _ =
          mergeMapL acc.Clusters (resolveLocalPaths cwd f cfg).Clusters
        rw [resolveLocalPaths_clusters _ _ hf]
        unfold mergeMapL
        rw [List.map_append, map_resolveCluster_of_resolved hacc.1, List.filter_map]
        rfl
      · rw [resolveLocalPaths_authInfos _ _ hf]
        show (mergeMapL acc.AuthInfos cfg.AuthInfos).map _ =
          mergeMapL acc.AuthInfos (resolveLocalPaths cwd f cfg).AuthInfos
        rw [resolveLocalPaths_authInfos _ _ hf]
        unfold mergeMapL
        rw [List.map_append, map_resolveAuthInfo_of_resolved hacc.2, List.filter_map]
        rfl
      · rw [resolveLocalPaths_contexts]
        show (mergeMapL acc.Contexts cfg.Contexts) =
          mergeMapL acc.Contexts (resolveLocalPaths cwd f cfg).Contexts
        rw [resolveLocalPaths_contexts]
      · rw [resolveLocalPaths_currentContext]
        show (mergoMerge acc cfg).CurrentContext =
          (mergoMerge acc (resolveLocalPaths cwd f cfg)).CurrentContext
        simp only [mergoMerge, resolveLocalPaths_currentContext]

theorem foldl_passStep_eq_specStep {fs : String → FileOutcome} {cwd : String}
    (files : List String) (acc : Config) (hcwd : isAbs cwd = true)
    (hacc : ResolvedConfig acc) :
    files.foldl (passStep fs cwd) acc = files.foldl (specStep fs cwd) acc := by
  induction files generalizing acc with
  | nil => rfl
  | cons f rest ih =>
    rw [List.foldl_cons, List.foldl_cons, ← passStep_eq_specStep f hcwd hacc]
    exact ih _ (resolvedConfig_passStep f hcwd hacc)

/-- The document handed to `resolveLocalPaths` in iteration `i` of a merge
pass of `Load`: the accumulator built from the first `i` candidates, with
candidate `i` merged in (the source resolves after merging). -/
def mapPassResolveArg (fs : String → FileOutcome) (cwd : String)
    (files : List String) (i : Nat) : Config :=
  (mergeConfigWithFile fs ((files.take i).foldl (passStep fs cwd) NewConfig)
    (files[i]?.getD "")).1

/-- The accumulator after `i + 1` iterations is exactly `resolveLocalPaths`
applied, with candidate `i`'s filename, to `mapPassResolveArg … i` — this pins
down `mapPassResolveArg` as the document the source passes to path
resolution at that iteration. -/
theorem mapPassResolveArg_glue (fs : String → FileOutcome) (cwd : String)
    (files : List String) (i : Nat) :
    (files.take (i + 1)).foldl (passStep fs cwd) NewConfig =
      resolveLocalPaths cwd (files[i]?.getD "")
        (mapPassResolveArg fs cwd files i) := by
  rw [List.take_succ, List.foldl_append]
  cases hg : files[i]? with
  | some v => simp [hg, passStep, mapPassResolveArg]
  | none => simp [hg, mapPassResolveArg, mergeConfigWithFile, resolveLocalPaths]

/-- Fixture filesystem for the C3 counterexample: two candidate files in two
different directories, each defining its own cluster with a relative CA path. -/
def c3fs : String → FileOutcome := fun s =>
  if s = "/d1/a.cfg" then .ok ⟨[("a", ⟨"https://h1", false, "ca.crt"⟩)], [], [], ""⟩
  else if s = "/d2/b.cfg" then .ok ⟨[("b", ⟨"https://h2", false, "ca2.crt"⟩)], [], [], ""⟩
  else .missing

/-- C3 counterexample: in `Load`'s map pass over `["/d1/a.cfg", "/d2/b.cfg"]`,
the document handed to path resolution at the iteration for the second file
already contains the first file's cluster entry `a` (already resolved to
`/d1/ca.crt`), which the second file's decoded document does not define — so
resolution is applied to the accumulator after merging, not to each file's
decoded document exactly once before merging, and the already-resolved entry
from `/d1/a.cfg` is passed through resolution a second time, against the
directory of the different file `/d2/b.cfg`. -/
theorem load_resolve_once_counterexample :
    alistFind "a" (mapPassResolveArg c3fs "/w" ["/d1/a.cfg", "/d2/b.cfg"] 1).Clusters =
      some ⟨"https://h1", false, "/d1/ca.crt"⟩ ∧
    (["/d1/a.cfg", "/d2/b.cfg"][1]?.getD "") = "/d2/b.cfg" ∧
    (match c3fs "/d2/b.cfg" with
     | .ok cfg => alistFind "a" cfg.Clusters
     | _ => none) = none ∧
    dirPath "/d2/b.cfg" ≠ dirPath "/d1/a.cfg" ∧
    (["/d1/a.cfg", "/d2/b.cfg"].take 2).foldl (passStep c3fs "/w") NewConfig =
      resolveLocalPaths "/w" "/d2/b.cfg"
        (mapPassResolveArg c3fs "/w" ["/d1/a.cfg", "/d2/b.cfg"] 1) := by
  refine ⟨by decide, by decide, by decide, by decide, by decide⟩

/-- C3 (amended): `Load` applies `resolveLocalPaths` to the whole accumulator
after each candidate's merge, so earlier candidates' already-resolved entries
pass through resolution again, against later files' directories (see the
counterexample); but because resolution produces absolute paths and leaves
absolute and empty paths unchanged, every relative path is effectively
resolved exactly once, against its own file's directory, and the loaded
document equals the one produced by the resolve-once-before-merge
discipline. -/
theorem load_resolve_equiv_resolve_first (rules : ClientConfigLoadingRules)
    (fs : String → FileOutcome) (cwd : String) (hcwd : isAbs cwd = true) :
    (rules.Load fs cwd).1 = specLoadConfig rules fs cwd := by
  rw [load_eq]
  show mergoMerge _ (nonMapPass _ _ _) = _
  unfold specLoadConfig nonMapPass
  rw [foldl_passStep_eq_specStep _ _ hcwd resolvedConfig_newConfig,
    foldl_passStep_eq_specStep _ _ hcwd resolvedConfig_newConfig]

/-- Witness for the amended C3 on the counterexample's concrete candidates. -/
theorem load_resolve_equiv_resolve_first_witness :
    isAbs "/w" = true ∧
    ((⟨[⟨"/d1/a.cfg", "", "", "/d2/b.cfg"⟩]⟩ : ClientConfigLoadingRules).Load c3fs "/w").1 =
      specLoadConfig ⟨[⟨"/d1/a.cfg", "", "", "/d2/b.cfg"⟩]⟩ c3fs "/w" :=
  ⟨by decide,
   load_resolve_equiv_resolve_first ⟨[⟨"/d1/a.cfg", "", "", "/d2/b.cfg"⟩]⟩ c3fs "/w" (by decide)⟩

/-! ## Auth challenge client

Model of `pkg/cmd/util/tokencmd/challenging_client.go`: the delegate HTTP
client is split into its `Transport` field (which `Do` mutates) and an
external network oracle `net : Transport → HttpRequest → NetResult` standing
for `client.delegate.Do`; prompting reads scripted lines; the recursion of
`Do` (which the source does not cap) is driven by explicit fuel. -/

/-- A transport: the base transport the client was constructed with, or a
basic-auth round tripper (`kclient.NewBasicAuthRoundTripper`) wrapping a
previous transport. -/
inductive Transport where
  | base (id : Nat)
  | basicAuth (username password : String) (wrapped : Transport)
deriving DecidableEq, Repr

/-- An HTTP request, identified opaquely: `Do` never builds a fresh request,
it only passes request values through, which is what the replay claim is
about. -/
structure HttpRequest where
  id : Nat
deriving DecidableEq, Repr

/-- The slice of an HTTP response the challenge client inspects: the status
code, the headers, and the `Request` field Go's client attaches (the request
that elicited the response). -/
structure HttpResponse where
  StatusCode : Nat
  Header : List (String × List String)
  Request : HttpRequest
deriving DecidableEq, Repr

/-- Case folding of two characters (ASCII simple fold, which covers the
header names involved). -/
def eqFoldChar (a b : Char) : Bool :=
  a == b ||
  (a.isUpper && b.isLower && a.toNat + 32 == b.toNat) ||
  (a.isLower && b.isUpper && a.toNat == b.toNat + 32)

def eqFoldL : List Char → List Char → Bool
  | [], [] => true
  | a :: as, b :: bs => eqFoldChar a b && eqFoldL as bs
  | _, _ => false

/-- Model of `strings.EqualFold` (ASCII folding, which covers the header
names involved). -/
def eqFold (a b : String) : Bool := eqFoldL a.data b.data

/-- Go regexp class `\s`, i.e. `[\t\n\f\r ]`. -/
def isSpaceChar (c : Char) : Bool :=
  c == ' ' || c == '\t' || c == '\n' || c == '\x0c' || c == '\r'

/-- Go regexp class `\w`, i.e. `[0-9A-Za-z_]`. -/
def isWordChar (c : Char) : Bool := c.isAlphanum || c == '_'

/-- Strip a literal from the front of a character list, or fail. -/
def dropLit : List Char → List Char → Option (List Char)
  | [], cs => some cs
  | _ :: _, [] => none
  | l :: ls, c :: cs => if c = l then dropLit ls cs else none

/-- Match the source's `basicAuthPattern`
(`[\s]*Basic[\s]*realm="([\w]+)"`) at the start of `cs`, returning the
captured realm.  Each character class is disjoint from the literal that
follows it, so Go's backtracking search reduces to this deterministic
greedy scan. -/
def matchBasicAt (cs : List Char) : Option String :=
  match dropLit "Basic".data (cs.dropWhile isSpaceChar) with
  | none => none
  | some cs₁ =>
    match dropLit "realm=\"".data (cs₁.dropWhile isSpaceChar) with
    | none => none
    | some cs₂ =>
      match cs₂.takeWhile isWordChar, cs₂.dropWhile isWordChar with
      | [], _ => none
      | realm, '"' :: _ => some ⟨realm⟩
      | _, _ => none

/-- First position of `cs` at which `basicAuthPattern` matches
(`FindAllStringSubmatch` with limit 1), with the captured realm. -/
def findBasicRealm : List Char → Option String
  | [] => none
  | c :: rest =>
    match matchBasicAt (c :: rest) with
    | some realm => some realm
    | none => findBasicRealm rest

def findBasicRealmStr (s : String) : Option String := findBasicRealm s.data

/-- Model of `isBasicAuthChallenge`: scan the response headers for a name
equal-folding to `WWW-Authenticate` whose value matches the basic-auth
pattern; return the flag and the first captured realm. -/
def isBasicAuthChallenge (resp : HttpResponse) : Bool × String :=
  match resp.Header.findSome? (fun hv =>
      if eqFold hv.1 "WWW-Authenticate" then hv.2.findSome? findBasicRealmStr
      else none) with
  | some realm => (true, realm)
  | none => (false, "")

/-- Occurrence of a literal anywhere in a character list
(`strings.Contains`). -/
def containsLit (lit : List Char) : List Char → Bool
  | [] => (dropLit lit []).isSome
  | c :: cs => (dropLit lit (c :: cs)).isSome || containsLit lit cs

/-- Model of `DecorateNoServerFoundError`: errors whose text contains
`no server found for` become a fixed guidance message. -/
def DecorateNoServerFoundError (err : String) : String :=
  if containsLit "no server found for".data err.data then
    "OpenShift is not configured. You need to run the login command in order to create a default config for your server and credentials."
  else err

/-- Model of `DecorateServerCertificateIssues`: errors whose text contains
`certificate signed by unknown authority` become a fixed guidance message. -/
def DecorateServerCertificateIssues (err : String) : String :=
  if containsLit "certificate signed by unknown authority".data err.data then
    "The server uses a certificate signed by an unknown authority. You may need to use the --certificate-authority flag to provide the path to a certificate file for the certificate authority, or --insecure-skip-tls-verify to bypass the certificate check and use insecure connections."
  else err

/-- Model of `DecorateErrors` (both rewrites, in source order). -/
def DecorateErrors (err : String) : String :=
  DecorateServerCertificateIssues (DecorateNoServerFoundError err)

/-- The challenging client's mutable state: its delegate's transport, the
prompt input stream, and the (possibly pre-supplied) username and password. -/
structure ChallengingClient where
  Transport : Transport
  reader : List String
  Username : String
  Password : String
deriving DecidableEq, Repr

/-- Result of one delegate call: a transport-level error or a response. -/
inductive NetResult where
  | err (msg : String)
  | resp (r : HttpResponse)
deriving DecidableEq, Repr

/-- Outcome of `challengingDo`; `fuelExhausted` marks runs longer than the
provided fuel (the source has no retry cap and can recurse indefinitely on
repeated challenges). -/
inductive DoOutcome where
  | fuelExhausted
  | netError (msg : String)
  | response (r : HttpResponse)
deriving DecidableEq, Repr

/-- Observable events of one `Do` call tree. -/
inductive DoEvent where
  | delegateDo (t : Transport) (req : HttpRequest)
  | promptedUsername
  | promptedPassword
  | installedTransport (t : Transport)
deriving DecidableEq, Repr

/-- Model of `util.PromptForString` / `PromptForPasswordString`: read one
line from the scripted input (empty when the input is exhausted). -/
def promptLine (reader : List String) : String × List String :=
  match reader with
  | [] => ("", [])
  | l :: rest => (l, rest)

/-- Model of `challengingClient.Do`.  On a 401 response that is a basic-auth
challenge it prompts for whichever of username/password was not pre-supplied
(`len > 0`, modelled as `≠ ""`), installs a basic-auth round tripper
wrapping the previous transport, and re-runs `Do` on `resp.Request`; any
other response is returned unchanged; network errors are decorated.  Returns
the outcome, the final client state, and the event trace. -/
def challengingDo (net : Transport → HttpRequest → NetResult) :
    Nat → ChallengingClient → HttpRequest → DoOutcome × ChallengingClient × List DoEvent
  | 0, client, _ => (.fuelExhausted, client, [])
  | fuel + 1, client, req =>
    match net client.Transport req with
    | .err msg =>
      (.netError (DecorateErrors msg), client, [.delegateDo client.Transport req])
    | .resp resp =>
      if resp.StatusCode = 401 then
        match isBasicAuthChallenge resp with
        | (true, _realm) =>
          let uDefaulted := client.Username ≠ ""
          let pDefaulted := client.Password ≠ ""
          let state :=
            if uDefaulted ∧ pDefaulted then (client, ([] : List DoEvent))
            else
              let u := if uDefaulted then (client.Username, client.reader)
                else promptLine client.reader
              let uEvents : List DoEvent := if uDefaulted then [] else [.promptedUsername]
              let p := if pDefaulted then (client.Password, u.2) else promptLine u.2
              let pEvents : List DoEvent := if pDefaulted then [] else [.promptedPassword]
              ({ client with Username := u.1, Password := p.1, reader := p.2 },
               uEvents ++ pEvents)
          let newTransport :=
            Transport.basicAuth state.1.Username state.1.Password state.1.Transport
          let client' := { state.1 with Transport := newTransport }
          let rec_ := challengingDo net fuel client' resp.Request
          (rec_.1, rec_.2.1,
            .delegateDo client.Transport req :: state.2 ++
              (.installedTransport newTransport :: rec_.2.2))
        | (false, _) => (.response resp, client, [.delegateDo client.Transport req])
      else (.response resp, client, [.delegateDo client.Transport req])

/-- C5: when `Do` receives a 401 response carrying a `WWW-Authenticate`
header (name matched case-insensitively) that matches `Basic realm="…"`, and
both username and password were pre-supplied, it invokes no interactive
prompt (no prompt events, input stream untouched), installs a basic-auth
transport for those credentials wrapping the previous transport, and replays
the original request — the very same request value, via `resp.Request` —
exactly once for the challenge. -/
theorem challengingDo_presupplied_replay
    (net : Transport → HttpRequest → NetResult) (client : ChallengingClient)
    (req : HttpRequest) (resp resp' : HttpResponse) (fuel : Nat)
    (hu : client.Username ≠ "") (hp : client.Password ≠ "")
    (h1 : net client.Transport req = .resp resp)
    (h401 : resp.StatusCode = 401)
    (hchal : (isBasicAuthChallenge resp).1 = true)
    (hreq : resp.Request = req)
    (h2 : net (.basicAuth client.Username client.Password client.Transport) req = .resp resp')
    (h2' : resp'.StatusCode ≠ 401) :
    challengingDo net (fuel + 2) client req =
      (.response resp',
       { client with Transport := .basicAuth client.Username client.Password client.Transport },
       [.delegateDo client.Transport req,
        .installedTransport (.basicAuth client.Username client.Password client.Transport),
        .delegateDo (.basicAuth client.Username client.Password client.Transport) req]) := by
  cases hpair : isBasicAuthChallenge resp with
  | mk flag realm =>
    rw [hpair] at hchal
    simp only at hchal
    subst hchal
    show challengingDo net (fuel + 1 + 1) client req = _
    rw [challengingDo, h1]
    simp only [h401, hpair, hreq, hu, hp, ne_eq, not_false_eq_true, and_self, if_true,
      reduceCtorEq, reduceIte]
    rw [challengingDo, h2]
    simp [h2']

/-- C10: a 401 response none of whose `WWW-Authenticate` header values (names
matched case-insensitively) matches `Basic realm="<word-chars>"` — for
example a realm containing a space, hyphen or dot — is returned unchanged by
`Do`: no prompt, no basic-auth transport installed, no retried request. -/
theorem challengingDo_non_matching_passthrough
    (net : Transport → HttpRequest → NetResult) (client : ChallengingClient)
    (req : HttpRequest) (resp : HttpResponse) (fuel : Nat)
    (h1 : net client.Transport req = .resp resp)
    (h401 : resp.StatusCode = 401)
    (hnone : ∀ hv ∈ resp.Header, eqFold hv.1 "WWW-Authenticate" = true →
      ∀ v ∈ hv.2, findBasicRealmStr v = none) :
    challengingDo net (fuel + 1) client req =
      (.response resp, client, [.delegateDo client.Transport req]) := by
  have hch : isBasicAuthChallenge resp = (false, "") := by
    unfold isBasicAuthChallenge
    have hfind : resp.Header.findSome? (fun hv =>
        if eqFold hv.1 "WWW-Authenticate" then hv.2.findSome? findBasicRealmStr
        else none) = none := by
      rw [List.findSome?_eq_none_iff]
      intro hv hmem
      by_cases he : eqFold hv.1 "WWW-Authenticate" = true
      · simp only [he, if_true]
        rw [List.findSome?_eq_none_iff]
        intro v hv2
        exact hnone hv hmem he v hv2
      · simp [he]
    rw [hfind]
  rw [challengingDo, h1]
  simp [h401, hch]

/-- Fixture network for the C5 witness: the base transport always draws the
basic challenge; the expected basic-auth transport draws a 200. -/
def c5net : Transport → HttpRequest → NetResult := fun t _ =>
  match t with
  | .basicAuth "alice" "secret" (.base 0) => .resp ⟨200, [], ⟨7⟩⟩
  | _ => .resp ⟨401, [("www-authenticate", ["Basic realm=\"origin\""])], ⟨7⟩⟩

/-- Fixture client for the C5 witness: both credentials pre-supplied. -/
def c5client : ChallengingClient := ⟨.base 0, [], "alice", "secret"⟩

def c5resp : HttpResponse := ⟨401, [("www-authenticate", ["Basic realm=\"origin\""])], ⟨7⟩⟩

def c5respOk : HttpResponse := ⟨200, [], ⟨7⟩⟩

/-- Witness for C5, the spec's Scenario B: pre-supplied `alice`/`secret`
against a `Basic realm="origin"` challenge (header name in lower case,
matched case-insensitively) — one replay of the same request through the
installed basic-auth transport, no prompts. -/
theorem challengingDo_presupplied_replay_witness :
    c5client.Username ≠ "" ∧ c5client.Password ≠ "" ∧
    c5net c5client.Transport ⟨7⟩ = .resp c5resp ∧
    c5resp.StatusCode = 401 ∧
    (isBasicAuthChallenge c5resp).1 = true ∧
    c5resp.Request = ⟨7⟩ ∧
    c5net (.basicAuth c5client.Username c5client.Password c5client.Transport) ⟨7⟩ =
      .resp c5respOk ∧
    c5respOk.StatusCode ≠ 401 ∧
    challengingDo c5net 2 c5client ⟨7⟩ =
      (.response c5respOk,
       { c5client with
           Transport := .basicAuth c5client.Username c5client.Password c5client.Transport },
       [.delegateDo c5client.Transport ⟨7⟩,
        .installedTransport (.basicAuth c5client.Username c5client.Password c5client.Transport),
        .delegateDo (.basicAuth c5client.Username c5client.Password c5client.Transport) ⟨7⟩]) :=
  ⟨by decide, by decide, by decide, by decide, by decide, by decide, by decide, by decide,
   challengingDo_presupplied_replay c5net c5client ⟨7⟩ c5resp c5respOk 0
     (by decide) (by decide) (by decide) (by decide) (by decide) (by decide)
     (by decide) (by decide)⟩

/-- Fixture response for the C10 witness: realms with a hyphen, a space and a
dot, none matching the word-characters-only pattern. -/
def c10resp : HttpResponse :=
  ⟨401,
   [("WWW-Authenticate", ["Basic realm=\"my-realm\""]),
    ("Www-Authenticate", ["Basic realm=\"a b\"", "Basic realm=\"x.y\""])],
   ⟨9⟩⟩

def c10net : Transport → HttpRequest → NetResult := fun _ _ => .resp c10resp

/-- Fixture client for the C10 witness: no pre-supplied credentials, so a
matched challenge would have prompted — the passthrough shows none was. -/
def c10client : ChallengingClient := ⟨.base 0, ["u", "p"], "", ""⟩

/-- Witness for C10: the 401 with hyphen/space/dot realms passes through
unchanged, with a single delegate call and no prompt or install events. -/
theorem challengingDo_non_matching_passthrough_witness :
    c10net c10client.Transport ⟨9⟩ = .resp c10resp ∧
    c10resp.StatusCode = 401 ∧
    (∀ hv ∈ c10resp.Header, eqFold hv.1 "WWW-Authenticate" = true →
      ∀ v ∈ hv.2, findBasicRealmStr v = none) ∧
    challengingDo c10net 1 c10client ⟨9⟩ =
      (.response c10resp, c10client, [.delegateDo c10client.Transport ⟨9⟩]) :=
  ⟨by decide, by decide, by decide,
   challengingDo_non_matching_passthrough c10net c10client ⟨9⟩ c10resp 0
     (by decide) (by decide) (by decide)⟩

/-! ## Config persistence (`UpdateConfigFile`, package `config`) -/

/-- The fields of `kclient.Config` the persistence path reads. -/
structure KClientConfig where
  Host : String
  Insecure : Bool
  CAFile : String
deriving DecidableEq, Repr

/-- Results of the three `clientcmd.ClientConfig` accessors `UpdateConfigFile`
calls (`RawConfig`, `ClientConfig`, `Namespace`), modelled as pre-computed
outcomes of the external client-config collaborator. -/
structure ClientConfigAccess where
  RawConfig : Except String Config
  ClientConfig : Except String KClientConfig
  Namespace : Except String String

/-- The persistence-facing config store: the document plus the filesystem
path it is written back to (the provenance tags are informational only and
omitted). -/
structure ConfigStore where
  Config : Config
  Path : String
deriving DecidableEq, Repr

/-- Modelled from the spec: `MergeConfig` (package `config`) is repository
code not present under `src/` — only its call sites are.  Per §4.6 the new
minimal document and the pre-existing on-disk document are combined with the
same two-pass map-first-wins / scalar-last-wins algorithm as §4.3, the new
minimal document playing the higher-priority candidate; the `rawMergedConfig`
argument of the source call site is accepted but not used by the spec's
description of the combination. -/
def MergeConfig (rawMergedConfig existing newConfig : Config) : Config :=
  let _ := rawMergedConfig
  let docs := [newConfig, existing]
  let mapConfig := docs.foldl mergoMerge NewConfig
  let nonMapConfig := docs.reverse.foldl mergoMerge NewConfig
  mergoMerge (mergoMerge NewConfig mapConfig) nonMapConfig

/-- Model of `UpdateConfigFile` (the final version, package `config`): read
the three accessors, build the minimal one-identity document — one AuthInfo
under the username (or `osc-login` when empty) carrying the token, one
Cluster named `host:port` of the server (the host/port split of
`flagtypes.Addr{Value: host}.Default()` is repository code not under `src/`
and is modelled from the spec as the abstract parser parameter
`addrDefault`), one Context joining them and carrying the namespace, and
`CurrentContext` pointing at it — merge it with the store's document via
`MergeConfig`, and return the `WriteToFile` action (path and contents)
instead of performing file I/O. -/
def UpdateConfigFile (username token : String) (clientCfg : ClientConfigAccess)
    (configStore : ConfigStore) (addrDefault : String → String × String) :
    Except String (String × Config) := do
  let rawMergedConfig ← clientCfg.RawConfig
  let clientConfig ← clientCfg.ClientConfig
  let ns ← clientCfg.Namespace
  let credentialsName := if username = "" then "osc-login" else username
  let credentials : AuthInfo := { NewAuthInfo with Token := token }
  let serverAddr := addrDefault clientConfig.Host
  let clusterName := serverAddr.1 ++ ":" ++ serverAddr.2
  let cluster : Cluster :=
    { NewCluster with
        Server := clientConfig.Host
        InsecureSkipTLSVerify := clientConfig.Insecure
        CertificateAuthority := clientConfig.CAFile }
  let contextName := clusterName ++ "-" ++ credentialsName
  let context : Context :=
    { NewContext with Cluster := clusterName, AuthInfo := credentialsName, Namespace := ns }
  let config : Config :=
    { Clusters := [(clusterName, cluster)]
      AuthInfos := [(credentialsName, credentials)]
      Contexts := [(contextName, context)]
      CurrentContext := contextName }
  let configToWrite := MergeConfig rawMergedConfig configStore.Config config
  return (configStore.Path, configToWrite)

/-- C8: when the three client-config accessors succeed, `UpdateConfigFile`
writes back, to the store's originating path, the `MergeConfig` combination
of the pre-existing on-disk document with a minimal document containing
exactly one AuthInfo whose name is the username (`osc-login` when the
username is empty) and whose `Token` is the new token, exactly one Cluster
whose name is the `host:port` of the server just authenticated against, and
exactly one Context named `<cluster>-<credentials>` referencing that cluster
and auth info and carrying the current namespace, with `CurrentContext` set
to that context's name. -/
theorem updateConfigFile_minimal_document
    (username token : String) (raw : Config) (kc : KClientConfig) (ns : String)
    (clientCfg : ClientConfigAccess) (store : ConfigStore)
    (addrDefault : String → String × String)
    (hraw : clientCfg.RawConfig = .ok raw)
    (hcc : clientCfg.ClientConfig = .ok kc)
    (hns : clientCfg.Namespace = .ok ns) :
    UpdateConfigFile username token clientCfg store addrDefault =
      .ok (store.Path,
        MergeConfig raw store.Config
          { Clusters := [((addrDefault kc.Host).1 ++ ":" ++ (addrDefault kc.Host).2,
              { Server := kc.Host, InsecureSkipTLSVerify := kc.Insecure,
                CertificateAuthority := kc.CAFile })]
            AuthInfos := [(if username = "" then "osc-login" else username,
              { NewAuthInfo with Token := token })]
            Contexts := [((addrDefault kc.Host).1 ++ ":" ++ (addrDefault kc.Host).2 ++ "-" ++
                (if username = "" then "osc-login" else username),
              { Cluster := (addrDefault kc.Host).1 ++ ":" ++ (addrDefault kc.Host).2,
                AuthInfo := if username = "" then "osc-login" else username,
                Namespace := ns })]
            CurrentContext := (addrDefault kc.Host).1 ++ ":" ++ (addrDefault kc.Host).2 ++ "-" ++
              (if username = "" then "osc-login" else username) }) := by
  unfold UpdateConfigFile
  rw [hraw, hcc, hns]
  rfl

/-- Fixture store for the C8 witness: an existing context `foo` pointing at
cluster `old:443` as `alice`. -/
def c8store : ConfigStore :=
  ⟨⟨[("old:443", ⟨"https://old:443", false, ""⟩)],
    [("alice", ⟨"", "", "", "tok0"⟩)],
    [("foo", ⟨"old:443", "alice", "proj"⟩)],
    "foo"⟩,
   "/home/u/.config/openshift/.config"⟩

/-- Fixture accessor results for the C8 witness: login against
`https://new:8443`, namespace `myns`. -/
def c8access : ClientConfigAccess :=
  ⟨.ok NewConfig, .ok ⟨"https://new:8443", false, ""⟩, .ok "myns"⟩

def c8addr : String → String × String := fun _ => ("new", "8443")

/-- Witness for C8, in the shape of the spec's Scenario C: logging in as
`bob` against `new:8443` writes back to the store's path; the untouched
`foo` context survives and `CurrentContext` becomes `new:8443-bob` with
`bob`'s new token in place. -/
theorem updateConfigFile_minimal_document_witness :
    c8access.RawConfig = .ok NewConfig ∧
    c8access.ClientConfig = .ok ⟨"https://new:8443", false, ""⟩ ∧
    c8access.Namespace = .ok "myns" ∧
    UpdateConfigFile "bob" "tok1" c8access c8store c8addr =
      .ok (c8store.Path,
        MergeConfig NewConfig c8store.Config
          { Clusters := [((c8addr "https://new:8443").1 ++ ":" ++ (c8addr "https://new:8443").2,
              { Server := "https://new:8443", InsecureSkipTLSVerify := false,
                CertificateAuthority := "" })]
            AuthInfos := [(if ("bob" : String) = "" then "osc-login" else "bob",
              { NewAuthInfo with Token := "tok1" })]
            Contexts := [((c8addr "https://new:8443").1 ++ ":" ++ (c8addr "https://new:8443").2 ++ "-" ++
                (if ("bob" : String) = "" then "osc-login" else "bob"),
              { Cluster := (c8addr "https://new:8443").1 ++ ":" ++ (c8addr "https://new:8443").2,
                AuthInfo := if ("bob" : String) = "" then "osc-login" else "bob",
                Namespace := "myns" })]
            CurrentContext := (c8addr "https://new:8443").1 ++ ":" ++ (c8addr "https://new:8443").2 ++ "-" ++
              (if ("bob" : String) = "" then "osc-login" else "bob") }) ∧
    (UpdateConfigFile "bob" "tok1" c8access c8store c8addr).toOption.map
      (fun p => p.1) = some "/home/u/.config/openshift/.config" ∧
    (UpdateConfigFile "bob" "tok1" c8access c8store c8addr).toOption.map
      (fun p => alistFind "foo" p.2.Contexts) = some (some ⟨"old:443", "alice", "proj"⟩) ∧
    (UpdateConfigFile "bob" "tok1" c8access c8store c8addr).toOption.map
      (fun p => p.2.CurrentContext) = some "new:8443-bob" ∧
    (UpdateConfigFile "bob" "tok1" c8access c8store c8addr).toOption.map
      (fun p => (alistFind "bob" p.2.AuthInfos).map AuthInfo.Token) = some (some "tok1") :=
  ⟨rfl, rfl, rfl,
   updateConfigFile_minimal_document "bob" "tok1" NewConfig ⟨"https://new:8443", false, ""⟩
     "myns" c8access c8store c8addr rfl rfl rfl,
   by decide, by decide, by decide, by decide⟩

end Origin
